import Mathlib

/-!
Verification development for the format_xml templating crate.

The crate compiles an XML-like template into a formatting invocation.  The
core engine (lexer, parser, document tree, renderer, format dispatcher) is
described in the specification; the published source file contributes the
`FnFmt` display/debug adapters, which are embedded here directly.  The engine
itself is modelled from the specification, one definition per component, and
the theorems below settle the frozen claims against these definitions.
-/

set_option maxHeartbeats 1000000

namespace FormatXml

/-- Modelled from the spec: runtime values produced by opaque host
expressions.  Only integers and strings are needed by the templates under
study; the host expression sub-language is out of scope. -/
inductive Value where
  | vInt (i : Int)
  | vStr (s : String)
deriving Repr, DecidableEq

/-- Modelled from the spec: the rendering context, a finite map from bound
names to host values, extended by loop patterns and let bindings. -/
def Env : Type := List (String × Value)

/-- Look a name up in the context; absent names yield the empty string value
(the host would reject such templates at compile time). -/
def lookupEnv (env : Env) (x : String) : Value :=
  match env with
  | [] => .vStr ""
  | (y, v) :: rest => if y = x then v else lookupEnv rest x

/-- Hexadecimal digits of a natural number, lowercase. -/
def hexStr (n : Nat) : String := String.mk (Nat.toDigits 16 n)

/-- Modelled from the spec: the host formatting protocol (section 4.4).
The dispatcher delegates to the host; the host conventions needed here are
the default textual representation (empty specifier) and the alternate
hexadecimal debug convention, written as the specifier string
followed by the value text. -/
def hostFormat (v : Value) (spec : String) : String :=
  if spec = "#x?" then
    match v with
    | .vInt i => if i < 0 then "-0x" ++ hexStr i.natAbs else "0x" ++ hexStr i.natAbs
    | .vStr s => s
  else
    match v with
    | .vInt i => toString i
    | .vStr s => s

/-- Modelled from the spec: the format dispatcher forwards the value and the
optional specifier string to the host protocol; an absent specifier means the
default representation. -/
def formatValue (v : Value) (spec : Option String) : String :=
  hostFormat v (spec.getD "")

/-- Modelled from the spec: attribute values (section 3). -/
inductive AttrValue where
  | static (text : String)
  | slot (expr : List (String × Value) → Value) (spec : Option String)
  | condList (entries : List (String × (List (String × Value) → Bool)))

/-- Modelled from the spec: an attribute is a name plus a value. -/
structure Attr where
  name : String
  value : AttrValue

/-- Modelled from the spec: the document tree (section 3).  Conditions,
scrutinees, iterables and slot expressions are opaque host expressions,
embedded as functions of the rendering context.  `element` stores the
closing-tag text independently of the opening name; `selfClosing` and the
children list are independent fields. -/
inductive Node where
  | literal (text : String)
  | slot (expr : List (String × Value) → Value) (spec : Option String)
  | element (name : String) (attrs : List Attr) (selfClosing : Bool)
      (closeName : String) (children : List Node)
  | doctype (body : List Node)
  | procInst (body : List Node)
  | comment (body : List Node)
  | cdata (body : List Node)
  | iff (branches : List ((List (String × Value) → Bool) × List Node))
      (elseBody : Option (List Node))
  | matchN (scrut : List (String × Value) → Value)
      (arms : List ((Value → Bool) × String × List Node))
  | forLoop (pat : String) (iter : List (String × Value) → List Value)
      (body : List Node)
  | letBinding (pat : String) (value : List (String × Value) → Value)

/-- Modelled from the spec: render a conditional attribute list — for each
entry whose condition is true append the literal followed by one space, in
list order; false entries contribute nothing. -/
def renderCondList (env : Env) :
    List (String × (List (String × Value) → Bool)) → String
  | [] => ""
  | (lit, c) :: rest =>
    (if c env then lit ++ " " else "") ++ renderCondList env rest

/-- Modelled from the spec: render an attribute value. -/
def renderAttrValue (env : Env) : AttrValue → String
  | .static t => t
  | .slot e spec => formatValue (e env) spec
  | .condList entries => renderCondList env entries

/-- Modelled from the spec: an attribute renders as a leading space, the
name, and the quoted value. -/
def renderAttr (env : Env) (a : Attr) : String :=
  " " ++ a.name ++ "=\"" ++ renderAttrValue env a.value ++ "\""

/-- Modelled from the spec: render an attribute list in order. -/
def renderAttrs (env : Env) : List Attr → String
  | [] => ""
  | a :: rest => renderAttr env a ++ renderAttrs env rest

mutual
/-- Modelled from the spec: render one node (section 4.3). -/
def renderNode (env : Env) (n : Node) : String :=
  match n with
  | .literal t => t
  | .slot e spec => formatValue (e env) spec
  | .element name attrs sc closeName children =>
    "<" ++ name ++ renderAttrs env attrs ++
      (if sc then " />"
       else ">" ++ renderNodes env children ++ "</" ++ closeName ++ ">")
  | .doctype body => "<!doctype " ++ renderNodes env body ++ ">"
  | .procInst body => "<?" ++ renderNodes env body ++ "?>"
  | .comment body => "<!-- " ++ renderNodes env body ++ " -->"
  | .cdata body => "<![CDATA[" ++ renderNodes env body ++ "]]>"
  | .iff branches elseBody => renderIf env branches elseBody
  | .matchN scrut arms => renderMatch env (scrut env) arms
  | .forLoop pat iter body => renderFor env pat (iter env) body
  | .letBinding _ _ => ""
termination_by (sizeOf n, 0)

/-- Modelled from the spec: render a node list in order; a let binding
extends the context for the subsequent sibling nodes and emits nothing. -/
def renderNodes (env : Env) (ns : List Node) : String :=
  match ns with
  | [] => ""
  | .letBinding p e :: rest => renderNodes ((p, e env) :: env) rest
  | n :: rest => renderNode env n ++ renderNodes env rest
termination_by (sizeOf ns, 0)

/-- Modelled from the spec: evaluate branch conditions in order, render the
body of the first true branch; when none is true render the else body if present,
otherwise nothing. -/
def renderIf (env : Env)
    (branches : List ((List (String × Value) → Bool) × List Node))
    (elseBody : Option (List Node)) : String :=
  match branches, elseBody with
  | [], none => ""
  | [], some b => renderNodes env b
  | (c, b) :: rest, eb =>
    if c env then renderNodes env b else renderIf env rest eb
termination_by (sizeOf branches + sizeOf elseBody, 0)

/-- Modelled from the spec: render the first arm whose pattern matches the
scrutinee value, binding the pattern name. -/
def renderMatch (env : Env) (v : Value)
    (arms : List ((Value → Bool) × String × List Node)) : String :=
  match arms with
  | [] => ""
  | (p, x, b) :: rest =>
    if p v then renderNodes ((x, v) :: env) b else renderMatch env v rest
termination_by (sizeOf arms, 0)

/-- Modelled from the spec: render the loop body once per produced element,
in iteration order, binding the loop pattern each iteration. -/
def renderFor (env : Env) (pat : String) (vs : List Value)
    (body : List Node) : String :=
  match vs with
  | [] => ""
  | v :: rest =>
    renderNodes ((pat, v) :: env) body ++ renderFor env pat rest body
termination_by (sizeOf body, vs.length + 1)
end

/-- Concatenate a list of strings in order. -/
def joinStrings : List String → String
  | [] => ""
  | s :: rest => s ++ joinStrings rest

/-- Modelled from the spec: lexical errors (section 7). -/
inductive LexError where
  | badCloseTagName
  | closeTagSelfClose
  | closeTagAttrs
deriving Repr, DecidableEq

/-- Characters allowed in a tag name: alphanumerics plus hyphen, colon and
underscore. -/
def isNameChar (c : Char) : Bool :=
  c.isAlphanum || c == '-' || c == ':' || c == '_'

/-- Modelled from the spec: lex the text of a closing tag, the characters
between the close-tag delimiters (section 4.1).  The tag name is scanned
greedily; after optional spaces the text must end.  A self-close marker on a
closing tag, or any attribute tokens, is a lexical error, even though the
name itself is never compared against the opening tag. -/
def lexCloseTagChars (cs : List Char) : Except LexError String :=
  let name := cs.takeWhile isNameChar
  let rest := (cs.dropWhile isNameChar).dropWhile (fun c => c == ' ')
  if name.isEmpty then .error .badCloseTagName
  else
    match rest with
    | [] => .ok (String.mk name)
    | c :: _ =>
      if c == '/' then .error .closeTagSelfClose else .error .closeTagAttrs

/-- Modelled from the spec: lex a closing tag given as a string. -/
def lexCloseTagText (s : String) : Except LexError String :=
  lexCloseTagChars s.toList

/-- Modelled from the spec: compilation is all-or-nothing (section 7) —
lexing a sequence of closing-tag texts yields either every token or an
error, never a partial token list. -/
def lexCloseTagList : List String → Except LexError (List String)
  | [] => .ok []
  | s :: rest =>
    match lexCloseTagText s with
    | .error e => .error e
    | .ok t =>
      match lexCloseTagList rest with
      | .error e => .error e
      | .ok ts => .ok (t :: ts)

/-- Modelled from the spec: parse errors (section 7). -/
inductive ParseError where
  | selfClosingWithChildren
deriving Repr, DecidableEq

/-- Modelled from the spec: parser rule for elements (section 4.2) — on a
self-close marker the element has no children; supplying children to a
self-closing element is a parse error.  No other check relates the opening
and closing names. -/
def parseElementNode (name : String) (attrs : List Attr) (selfClosing : Bool)
    (closeName : String) (children : List Node) : Except ParseError Node :=
  if selfClosing && !children.isEmpty then .error .selfClosingWithChildren
  else .ok (.element name attrs selfClosing closeName children)

/-- A Rust formatting error, embedding `fmt::Error` from the standard
library (a unit struct). -/
inductive FmtError where
  | error
deriving Repr, DecidableEq

/-- Embeds `std::fmt::Formatter::write_str`: the formatter is modelled as
its output buffer, and a write appends to it and succeeds. -/
def writeStr (s : String) (buf : String) : Except FmtError String :=
  .ok (buf ++ s)

/-- Embeds `pub struct FnFmt<F: Fn(&mut fmt::Formatter) -> fmt::Result>(pub F)`
from src/src/lib.rs.  The wrapped closure takes the formatter (modelled as
its buffer) and returns either the updated buffer or a formatting error,
embedding the mutation of the formatter together with `fmt::Result`. -/
structure FnFmt where
  f : String → Except FmtError String

/-- Embeds `impl fmt::Display for FnFmt` from src/src/lib.rs: the body is
`(self.0)(f)`. -/
def FnFmt.displayFmt (x : FnFmt) (buf : String) : Except FmtError String :=
  x.f buf

/-- Embeds `impl fmt::Debug for FnFmt` from src/src/lib.rs: the body is
`f.write_str("FnFmt([closure])")`. -/
def FnFmt.debugFmt (_x : FnFmt) (buf : String) : Except FmtError String :=
  writeStr "FnFmt([closure])" buf

/-- A for loop renders as the concatenation, in iteration order, of the body
rendered under the extended context, one piece per element. -/
theorem renderFor_eq_join (env : Env) (pat : String) (vs : List Value)
    (body : List Node) :
    renderFor env pat vs body =
      joinStrings (vs.map fun v => renderNodes ((pat, v) :: env) body) := by
  induction vs with
  | nil => simp [renderFor, joinStrings]
  | cons v rest ih => simp [renderFor, joinStrings, ih]

/-- A conditional attribute list renders as the concatenation, in list
order, of literal-plus-space for true entries and nothing for false ones. -/
theorem renderCondList_eq_join (env : Env)
    (entries : List (String × (List (String × Value) → Bool))) :
    renderCondList env entries =
      joinStrings (entries.map fun e => if e.2 env then e.1 ++ " " else "") := by
  induction entries with
  | nil => simp [renderCondList, joinStrings]
  | cons e rest ih =>
    cases e with
    | mk lit c => simp [renderCondList, joinStrings, ih]

/-- C1: a conditional attribute list renders, in list order, literal plus
one space for every true entry and nothing at all for false entries; the
example class attribute renders with its trailing space kept. -/
theorem condList_renders_true_entries_in_order_with_trailing_space :
    (∀ (env : Env) (lit : String) (c : List (String × Value) → Bool) rest,
      renderCondList env ((lit, c) :: rest) =
        (if c env then lit ++ " " else "") ++ renderCondList env rest) ∧
    (∀ (env : Env) entries,
      renderAttrValue env (.condList entries) =
        joinStrings (entries.map fun e => if e.2 env then e.1 ++ " " else "")) ∧
    renderAttr []
        ⟨"class", .condList [("class-a", fun _ => true), ("class-b", fun _ => false)]⟩ =
      " class=\"class-a \"" ∧
    (renderAttrValue []
        (.condList [("class-a", fun _ => true), ("class-b", fun _ => false)])).toList.getLast?
      = some ' ' := by
  refine ⟨fun env lit c rest => rfl, renderCondList_eq_join, ?_, ?_⟩ <;> decide

/-- C2: an if node renders exactly the body of the first true branch, the
else body when all conditions are false, and nothing when all conditions are
false and there is no else body; skipped branches contribute nothing. -/
theorem if_renders_exactly_first_true_branch :
    (∀ (env : Env) (c1 c2 : List (String × Value) → Bool) (b1 b2 b3 : List Node),
      renderNode env (.iff [(c1, b1), (c2, b2)] (some b3)) =
        if c1 env then renderNodes env b1
        else if c2 env then renderNodes env b2
        else renderNodes env b3) ∧
    (∀ (env : Env) (c1 c2 : List (String × Value) → Bool) (b1 b2 : List Node),
      renderNode env (.iff [(c1, b1), (c2, b2)] none) =
        if c1 env then renderNodes env b1
        else if c2 env then renderNodes env b2
        else "") := by
  constructor <;> intro env c1 c2 b1 b2 <;> simp [renderNode, renderIf]

/-- C3: a for loop renders its body once per produced element in iteration
order, an empty iterable renders nothing, the 1..=3 list example renders the
three list items, and a let binding extends the context for subsequent
sibling nodes while producing no output itself. -/
theorem for_renders_body_per_element_in_order :
    (∀ (env : Env) (p : String) (iter : List (String × Value) → List Value)
        (body : List Node),
      renderNode env (.forLoop p iter body) =
        joinStrings ((iter env).map fun v => renderNodes ((p, v) :: env) body)) ∧
    (∀ (env : Env) (p : String) (body : List Node),
      renderNode env (.forLoop p (fun _ => []) body) = "") ∧
    renderNode [] (.forLoop "i" (fun _ => [.vInt 1, .vInt 2, .vInt 3])
        [.element "li" [] false "li" [.slot (fun env => lookupEnv env "i") none]]) =
      "<li>1</li><li>2</li><li>3</li>" ∧
    (∀ (env : Env) (p : String) (e : List (String × Value) → Value)
        (rest : List Node),
      renderNodes env (.letBinding p e :: rest) =
        renderNodes ((p, e env) :: env) rest) ∧
    (∀ (env : Env) (p : String) (e : List (String × Value) → Value),
      renderNode env (.letBinding p e) = "") ∧
    renderNode [] (.forLoop "i" (fun _ => [.vInt 1, .vInt 2])
        [.letBinding "t"
          (fun env => match lookupEnv env "i" with | .vInt n => .vInt (n * 5) | v => v),
         .slot (fun env => lookupEnv env "i") none, .literal "*5=",
         .slot (fun env => lookupEnv env "t") none, .literal ";"]) =
      "1*5=5;2*5=10;" := by
  refine ⟨?_, ?_, ?_, ?_, ?_, ?_⟩
  · intro env p iter body
    simp [renderNode, renderFor_eq_join]
  · intro env p body
    simp [renderNode, renderFor]
  · simp [renderNode, renderNodes, renderFor, renderAttrs, formatValue,
      hostFormat, lookupEnv]
    rfl
  · intro env p e rest
    simp [renderNodes]
  · intro env p e
    simp [renderNode]
  · simp [renderNode, renderNodes, renderFor, formatValue, hostFormat,
      lookupEnv]
    rfl

/-- C4: the format specifier of a slot is forwarded unmodified to the host
formatting protocol; the hexadecimal-debug specifier renders 42 as 0x2a, and
an absent specifier yields the default representation. -/
theorem format_specifier_passthrough :
    (∀ (env : Env) (e : List (String × Value) → Value) (s : String),
      renderNode env (.slot e (some s)) = hostFormat (e env) s) ∧
    (∀ (env : Env) (e : List (String × Value) → Value),
      renderNode env (.slot e none) = hostFormat (e env) "") ∧
    renderNode [] (.slot (fun _ => .vInt 42) (some "#x?")) = "0x2a" ∧
    hostFormat (.vInt 42) "" = "42" ∧
    renderAttr [] ⟨"data-value", .slot (fun _ => .vInt 42) none⟩ =
      " data-value=\"42\"" := by
  refine ⟨?_, ?_, ?_, ?_, ?_⟩
  · intro env e s
    simp [renderNode, formatValue]
  · intro env e
    simp [renderNode, formatValue]
  · simp [renderNode, formatValue, hostFormat, hexStr]
    rfl
  · rfl
  · rfl

/-- C5: opening and closing tag names are never cross-validated — a
non-self-closing element renders its stored closing-tag text independently
of the opening name, the open/close example compiles and renders exactly as
written, and the lexer accepts the mismatched closing name. -/
theorem close_tag_name_never_crossvalidated :
    (∀ (env : Env) (n : String) (attrs : List Attr) (cn : String)
        (ch : List Node),
      renderNode env (.element n attrs false cn ch) =
        "<" ++ n ++ renderAttrs env attrs ++ ">" ++ renderNodes env ch ++
          "</" ++ cn ++ ">") ∧
    renderNode [] (.element "open" [] false "close" []) = "<open></close>" ∧
    parseElementNode "open" [] false "close" [] =
      .ok (.element "open" [] false "close" []) ∧
    lexCloseTagText "close" = .ok "close" := by
  refine ⟨?_, ?_, ?_, ?_⟩
  · intro env n attrs cn ch
    simp [renderNode, String.append_assoc]
  · simp [renderNode, renderNodes, renderAttrs]
  · rfl
  · rfl

/-- C6: a closing tag carrying a self-close marker or attribute tokens is
rejected with a lexical error while a plain closing name is accepted, and
compilation is all-or-nothing — one bad closing tag makes the whole
compilation fail regardless of the remaining input, with no partial token
list. -/
theorem close_tag_with_marker_or_attrs_rejected :
    lexCloseTagText "tag/" = .error .closeTagSelfClose ∧
    lexCloseTagText "tag disabled" = .error .closeTagAttrs ∧
    lexCloseTagText "tag" = .ok "tag" ∧
    (∀ rest : List String,
      lexCloseTagList ("tag/" :: rest) = .error .closeTagSelfClose) ∧
    lexCloseTagList ["tag", "tag/"] = .error .closeTagSelfClose := by
  have h : lexCloseTagText "tag/" = .error .closeTagSelfClose := rfl
  refine ⟨h, rfl, rfl, ?_, rfl⟩
  intro rest
  simp [lexCloseTagList, h]

/-- C7: an element with the self-close marker renders as its name and
attributes followed by space, slash, greater-than, never rendering any
children, and the parser rejects a self-closing element that is supplied
children. -/
theorem self_closing_renders_no_children :
    (∀ (env : Env) (n : String) (attrs : List Attr) (cn : String)
        (ch : List Node),
      renderNode env (.element n attrs true cn ch) =
        "<" ++ n ++ renderAttrs env attrs ++ " />") ∧
    renderNode [] (.element "br" [] true "div" [.literal "ignored"]) =
      "<br />" ∧
    parseElementNode "br" [] true "br" [.literal "x"] =
      .error .selfClosingWithChildren ∧
    parseElementNode "br" [] true "br" [] = .ok (.element "br" [] true "br" []) := by
  refine ⟨?_, ?_, ?_, ?_⟩
  · intro env n attrs cn ch
    simp [renderNode, String.append_assoc]
  · simp [renderNode, renderAttrs]
  · rfl
  · rfl

/-- C8: no escaping is ever applied — literal text and expression values
are rendered verbatim, markup characters included. -/
theorem no_escaping_applied :
    (∀ (env : Env) (t : String), renderNode env (.literal t) = t) ∧
    (∀ (s : String), hostFormat (.vStr s) "" = s) ∧
    (∀ (env : Env) (s : String),
      renderNode env (.slot (fun _ => .vStr s) none) = s) ∧
    renderNode [] (.literal "<b attr=\"x\">&</b>") = "<b attr=\"x\">&</b>" ∧
    renderNode [] (.slot (fun _ => .vStr "<script>\"&\"</script>") none) =
      "<script>\"&\"</script>" := by
  refine ⟨?_, ?_, ?_, ?_, ?_⟩
  · intro env t
    simp [renderNode]
  · intro s
    simp [hostFormat]
  · intro env s
    simp [renderNode, formatValue, hostFormat]
  · simp [renderNode]
  · simp [renderNode, formatValue, hostFormat]

/-- C9: displaying an FnFmt wrapper invokes the wrapped closure on the given
formatter and returns its result unchanged — same output text, same failure
behaviour. -/
theorem fnFmt_display_invokes_closure :
    (∀ (f : String → Except FmtError String) (buf : String),
      FnFmt.displayFmt ⟨f⟩ buf = f buf) ∧
    (∀ (x : FnFmt) (buf : String), x.displayFmt buf = x.f buf) := by
  exact ⟨fun f buf => rfl, fun x buf => rfl⟩

/-- C10: debug-formatting an FnFmt wrapper writes the constant string
FnFmt([closure]) to the formatter, independently of the wrapped closure,
which is never invoked. -/
theorem fnFmt_debug_constant_independent_of_closure :
    ∀ (f g : String → Except FmtError String) (buf : String),
      FnFmt.debugFmt ⟨f⟩ buf = FnFmt.debugFmt ⟨g⟩ buf ∧
      FnFmt.debugFmt ⟨f⟩ buf = .ok (buf ++ "FnFmt([closure])") := by
  exact fun f g buf => ⟨rfl, rfl⟩

end FormatXml
